import Mathlib

/-!
Shallow embedding of the JOS kernel monitor (kern/monitor.c) and proofs
about its commands: showmappings, setperm, dump, backtrace, c/s, and the
tokenizer/dispatcher in runcmd/monitor.

External collaborators (page-table walk, address translation, console
output, symbol lookup, the integer parser) are modelled as components of
an abstract machine record; console output is modelled as a list of
structured output events mirroring the cprintf calls of the source.
-/

namespace JOS

/-- Page size in bytes (PGSIZE from inc/mmu.h; the spec calls it the
fixed page size of an aligned range). -/
def PGSIZE : Nat := 4096

/-- Modelled from the spec: the kernel base virtual address used by the
external physical-to-kernel-virtual translation (KERNBASE in
inc/memlayout.h of this kernel). -/
def KERNBASE : Nat := 0xF0000000

/-- Top of the kernel stack region (KSTACKTOP from inc/memlayout.h;
equal to KERNBASE in this kernel's layout). -/
def KSTACKTOP : Nat := KERNBASE

/-- Bytes mapped by one page-directory entry (PTSIZE from inc/mmu.h:
1024 pages of 4096 bytes).  `KSTACKTOP - PTSIZE` is the spec's
"known kernel-stack region" lower bound used by the unwinder. -/
def PTSIZE : Nat := 4096 * 1024

/-- Present bit of a page-table entry (PTE_P from inc/mmu.h). -/
def PTE_P : Nat := 0x1

/-- Writable bit of a page-table entry (PTE_W from inc/mmu.h). -/
def PTE_W : Nat := 0x2

/-- User-accessible bit of a page-table entry (PTE_U from inc/mmu.h). -/
def PTE_U : Nat := 0x4

/-- Trap flag of the x86 EFLAGS register (FL_TF from inc/mmu.h). -/
def FL_TF : Nat := 0x100

/-- Maximum number of argument slots in runcmd (MAXARGS). -/
def MAXARGS : Nat := 16

/-- ROUNDUP(a, n) from inc/types.h: round a up to the nearest multiple
of n. -/
def ROUNDUP (a n : Nat) : Nat := (a + n - 1) / n * n

/-- PTE_ADDR(pte) from inc/mmu.h: the physical frame base stored in a
page-table entry (the entry with its low 12 permission bits masked
off; entries are 32-bit words). -/
def PTE_ADDR (pte : Nat) : Nat := pte &&& 0xFFFFF000

/-- KADDR(pa) from kern/pmap.h.  Modelled from the spec: the external
translation primitive taking a physical address to the kernel virtual
address that maps it; in this kernel it adds KERNBASE. -/
def KADDR (pa : Nat) : Nat := pa + KERNBASE

/-- PADDR(va) from kern/pmap.h: inverse translation, `va - KERNBASE`
computed in 32-bit unsigned arithmetic. -/
def PADDR (va : Nat) : Nat := (va + (2 ^ 32 - KERNBASE)) % 2 ^ 32

/-- Value of a 32-bit word reinterpreted as a signed C `int` (the dump
loops use a signed `int` index). -/
def toInt32 (n : Nat) : Int :=
  if n % 2 ^ 32 < 2 ^ 31 then (n % 2 ^ 32 : Nat) else (n % 2 ^ 32 : Nat) - 2 ^ 32

/-- struct Eipdebuginfo (kern/kdebug.h), as consumed by mon_backtrace. -/
structure Eipdebuginfo where
  eip_file : String
  eip_line : Nat
  eip_fn_name : String
  eip_fn_namelen : Nat
  eip_fn_addr : Nat
deriving DecidableEq

/-- struct Trapframe, restricted to the single field the monitor
touches (tf_eflags). -/
structure Trapframe where
  tf_eflags : Nat
deriving DecidableEq

/-- The abstract machine the monitor runs against.  `pt` models
`pgdir_walk(kern_pgdir, va, 0)` keyed by virtual page number
(va / PGSIZE): `none` is a NULL pte pointer, `some pte` the entry's
current 32-bit value.  `mem` is byte-addressed memory (dump), `memw`
word-addressed memory reads at byte addresses (backtrace), `curenv`
the global current-environment pointer carrying env_id when non-null,
`ebp0` the value of read_ebp(), `dbg` the external debuginfo_eip
lookup, `parse` the external strtol integer parser, and `fuel` a
bound on backtrace iterations (the C loop may run forever on a cyclic
frame chain). -/
structure Machine where
  pt : Nat → Option Nat
  mem : Nat → Nat
  memw : Nat → Nat
  curenv : Option Nat
  ebp0 : Nat
  dbg : Nat → Eipdebuginfo
  parse : String → Nat
  fuel : Nat

/-- One console output event; each constructor corresponds to one
cprintf site (or one tight group of cprintf calls) in kern/monitor.c. -/
inductive Out where
  | invalidAddress
  | invalidPerm
  | invalidType
  | usageShowmappings
  | usageSetperm
  | usageDump
  | tooManyArgs
  | unknownCmd (s : String)
  | helpLine (name desc : String)
  | kerninfoOut
  | smHeader
  | smRange (a b : Nat)
  | smNotMapped
  | smEntry (phys : Nat) (perm : String)
  | skipUnmapped (a : Nat)
  | dumpAddrLine (a : Nat)
  | dumpByte (v : Nat)
  | newline
  | btHeader
  | btInfo (id : Nat)
  | btFrame (ebp : Nat) (words : List Nat)
  | btDbg (file : String) (line : Nat) (fn : String) (fnlen off : Nat)
  | btUserMarker (ebp : Nat)
  | noTrapframe
  | debugPrompt (id : Nat)
  | kPrompt
deriving DecidableEq

/-- Result of one command handler: a normal return (with the possibly
updated machine, trapframe, console output and C return value), a
kernel panic, a (modelled) fault from dereferencing a null pointer, or
divergence (backtrace fuel exhausted, modelling the unbounded C loop).
Each result carries the output emitted before it. -/
inductive HRes where
  | ret (m : Machine) (tf : Option Trapframe) (out : List Out) (v : Int)
  | panicked (out : List Out) (msg : String)
  | fault (out : List Out)
  | diverged (out : List Out)

/-- Permission string printed by __mon_showmappings3 for an existing
entry: the four single-character cprintf calls (U or dash, then R,
then W or dash, then P or dash). -/
def permStr (pte : Nat) : String :=
  (if pte &&& PTE_U ≠ 0 then "U" else "-") ++ "R"
    ++ (if pte &&& PTE_W ≠ 0 then "W" else "-")
    ++ (if pte &&& PTE_P ≠ 0 then "P" else "-")

/-- Output of one iteration of the __mon_showmappings3 loop at address
`a`: the range prefix, then either "Not mapped ----" or the physical
frame base with the permission string. -/
def smPage (pt : Nat → Option Nat) (a : Nat) : List Out :=
  Out.smRange a (a + PGSIZE) ::
    match pt (a / PGSIZE) with
    | none => [Out.smNotMapped]
    | some pte => [Out.smEntry (PTE_ADDR pte) (permStr pte)]

/-- The `while (start < end)` loop of __mon_showmappings3, by iteration
count (the loop advances by PGSIZE, so it runs
`(end - start + PGSIZE - 1) / PGSIZE` times). -/
def smLoop (pt : Nat → Option Nat) : Nat → Nat → List Out
  | 0, _ => []
  | n + 1, a => smPage pt a ++ smLoop pt n (a + PGSIZE)

/-- __mon_showmappings3 (kern/monitor.c:142): header line, then the
page loop; returns 0. -/
def __mon_showmappings3 (pt : Nat → Option Nat) (start e : Nat) : List Out × Int :=
  (Out.smHeader :: smLoop pt ((e - start + PGSIZE - 1) / PGSIZE) start, 0)

/-- mon_showmappings (kern/monitor.c:182): arity check, strtol parse of
the bounds (end defaults to start + PGSIZE), alignment/order
validation, then the core loop. -/
def mon_showmappings (argv : List String) (m : Machine) (tf : Option Trapframe) : HRes :=
  let argc := argv.length
  if argc = 2 ∨ argc = 3 then
    let start := m.parse (argv.getD 1 "")
    let e := if argc = 2 then start + PGSIZE else m.parse (argv.getD 2 "")
    if start ≠ ROUNDUP start PGSIZE ∨ e ≠ ROUNDUP e PGSIZE ∨ start ≥ e then
      .ret m tf [Out.invalidAddress] 0
    else
      let r := __mon_showmappings3 m.pt start e
      .ret m tf r.1 r.2
  else
    .ret m tf [Out.usageShowmappings] 0

/-- The two read-modify-write statements of the __mon_setperm4 loop
body on an existing entry: perm[0] equal to U sets PTE_U, anything
else clears it (via a 32-bit and with the complement mask); likewise
perm[1] and PTE_W. -/
def applyPerm (p0 p1 : Char) (e : Nat) : Nat :=
  let e1 := if p0 = 'U' then e ||| PTE_U else e &&& 0xFFFFFFFB
  if p1 = 'W' then e1 ||| PTE_W else e1 &&& 0xFFFFFFFD

/-- Point update of the modelled page table (writing through the pte
pointer returned by pgdir_walk). -/
def ptUpdate (pt : Nat → Option Nat) (k v : Nat) : Nat → Option Nat :=
  fun p => if p = k then some v else pt p

/-- The `while (start < end)` loop of __mon_setperm4, by iteration
count: each page is looked up; a missing entry is reported and
skipped, an existing entry is rewritten in place with applyPerm. -/
def spLoop (p0 p1 : Char) : Nat → Nat → (Nat → Option Nat) → (Nat → Option Nat) × List Out
  | 0, _, pt => (pt, [])
  | n + 1, a, pt =>
    match pt (a / PGSIZE) with
    | none =>
      let r := spLoop p0 p1 n (a + PGSIZE) pt
      (r.1, Out.skipUnmapped a :: r.2)
    | some e =>
      spLoop p0 p1 n (a + PGSIZE) (ptUpdate pt (a / PGSIZE) (applyPerm p0 p1 e))

/-- __mon_setperm4 (kern/monitor.c:208): iterate the range page by
page, editing existing entries and reporting missing ones; returns
0.  The permission string is read at indices 0 and 1 (reading the
NUL terminator, modelled as the character of code 0, when shorter). -/
def __mon_setperm4 (pt : Nat → Option Nat) (start e : Nat) (perm : String) :
    (Nat → Option Nat) × List Out × Int :=
  let p0 := perm.toList.getD 0 (Char.ofNat 0)
  let p1 := perm.toList.getD 1 (Char.ofNat 0)
  let r := spLoop p0 p1 ((e - start + PGSIZE - 1) / PGSIZE) start pt
  (r.1, r.2, 0)

/-- mon_setperm (kern/monitor.c:235): arity check, parse of the bounds
(end defaults to start + PGSIZE), alignment/order validation, then the
permission-code validation, then the core loop. -/
def mon_setperm (argv : List String) (m : Machine) (tf : Option Trapframe) : HRes :=
  let argc := argv.length
  if argc ≠ 3 ∧ argc ≠ 4 then
    .ret m tf [Out.usageSetperm] 0
  else
    let start := m.parse (argv.getD 2 "")
    let e := if argc = 3 then start + PGSIZE else m.parse (argv.getD 3 "")
    if start ≠ ROUNDUP start PGSIZE ∨ e ≠ ROUNDUP e PGSIZE ∨ start ≥ e then
      .ret m tf [Out.invalidAddress] 0
    else
      let perm := argv.getD 1 ""
      let p0 := perm.toList.getD 0 (Char.ofNat 0)
      let p1 := perm.toList.getD 1 (Char.ofNat 0)
      if (p0 ≠ '-' ∧ p0 ≠ 'U') ∨ (p1 ≠ '-' ∧ p1 ≠ 'W') then
        .ret m tf [Out.invalidPerm] 0
      else
        let r := __mon_setperm4 m.pt start e perm
        .ret { m with pt := r.1 } tf r.2.1 r.2.2

/-- Output of one iteration of a dump loop at (32-bit) virtual address
`a`: the address-prefix line when `a` is divisible by 16 (printed as
the physical address PADDR a in the physical variant), then the byte
read at `a`. -/
def dumpStep (mem : Nat → Nat) (phys : Bool) (a : Nat) : List Out :=
  (if a % 16 = 0 then [Out.dumpAddrLine (if phys then PADDR a else a)] else [])
    ++ [Out.dumpByte (mem a)]

/-- The `for (int i = vstart; i < vend; i += 1)` loop of the dump
functions, by iteration count; `i` is a signed 32-bit int, and the
byte is read at the pointer `(uint8_t *) i`, i.e. at `i mod 2^32`. -/
def dumpLoopAux (mem : Nat → Nat) (phys : Bool) : Nat → Int → List Out
  | 0, _ => []
  | n + 1, i => dumpStep mem phys ((i % (2 ^ 32)).toNat) ++ dumpLoopAux mem phys n (i + 1)

/-- The dump loop from its signed bounds: it runs `(iend - i).toNat`
times (zero when `i ≥ iend` under the signed comparison). -/
def dumpLoop (mem : Nat → Nat) (phys : Bool) (i iend : Int) : List Out :=
  dumpLoopAux mem phys (iend - i).toNat i

/-- __mon_dump4v (kern/monitor.c:285): dump the virtual range, with a
trailing newline; returns 0. -/
def __mon_dump4v (mem : Nat → Nat) (start e : Nat) : List Out × Int :=
  (dumpLoop mem false (toInt32 start) (toInt32 e) ++ [Out.newline], 0)

/-- __mon_dump4p (kern/monitor.c:269): translate both physical bounds
with KADDR, dump that virtual range printing physical prefixes, with a
trailing newline; returns 0. -/
def __mon_dump4p (mem : Nat → Nat) (start e : Nat) : List Out × Int :=
  (dumpLoop mem true (toInt32 (KADDR start)) (toInt32 (KADDR e)) ++ [Out.newline], 0)

/-- mon_dump (kern/monitor.c:298): arity check, parse of the bounds
(end defaults to start + PGSIZE), then dispatch on the first character
of the type argument; no alignment or order validation is performed. -/
def mon_dump (argv : List String) (m : Machine) (tf : Option Trapframe) : HRes :=
  let argc := argv.length
  if argc ≠ 3 ∧ argc ≠ 4 then
    .ret m tf [Out.usageDump] 0
  else
    let start := m.parse (argv.getD 2 "")
    let e := if argc = 3 then start + PGSIZE else m.parse (argv.getD 3 "")
    let t := (argv.getD 1 "").toList.getD 0 (Char.ofNat 0)
    if t = 'V' then
      let r := __mon_dump4v m.mem start e
      .ret m tf r.1 r.2
    else if t = 'P' then
      let r := __mon_dump4p m.mem start e
      .ret m tf r.1 r.2
    else
      .ret m tf [Out.invalidType] 0

/-- The two output lines mon_backtrace prints for the frame at `ebp`:
the frame line (saved eip at ebp+4 followed by the five argument words
at ebp+8 .. ebp+24, word-sized pointer arithmetic) and the debug-info
line for that eip. -/
def btFrameOut (mw : Nat → Nat) (dbg : Nat → Eipdebuginfo) (ebp : Nat) : List Out :=
  [Out.btFrame ebp [mw (ebp + 4), mw (ebp + 8), mw (ebp + 12), mw (ebp + 16),
      mw (ebp + 20), mw (ebp + 24)],
   Out.btDbg (dbg (mw (ebp + 4))).eip_file (dbg (mw (ebp + 4))).eip_line
      (dbg (mw (ebp + 4))).eip_fn_name (dbg (mw (ebp + 4))).eip_fn_namelen
      (mw (ebp + 4) - (dbg (mw (ebp + 4))).eip_fn_addr)]

/-- The `while (ebp)` loop of mon_backtrace, with explicit fuel (the C
loop is unbounded and may cycle).  After printing a frame the new ebp
is loaded from `*ebp`; when curenv is non-null (cp) — the source's
`user_flag` is constantly false, its updates being commented out — and
the new ebp is below KSTACKTOP - PTSIZE, the boundary marker is
printed and the loop breaks.  The Bool is true when the loop exited
normally, false when fuel ran out. -/
def btLoop (mw : Nat → Nat) (dbg : Nat → Eipdebuginfo) (cp : Bool)
    (fuel ebp : Nat) : List Out × Bool :=
  if ebp = 0 then ([], true)
  else
    match fuel with
    | 0 => ([], false)
    | n + 1 =>
      let fr := btFrameOut mw dbg ebp
      let ebp2 := mw ebp
      if cp ∧ ebp2 < KSTACKTOP - PTSIZE then (fr ++ [Out.btUserMarker ebp2], true)
      else
        let r := btLoop mw dbg cp n ebp2
        (fr ++ r.1, r.2)

/-- mon_backtrace (kern/monitor.c:76): print the header, then the info
line reading curenv->env_id — a null-pointer dereference, modelled as
a fault, when curenv is null — then unwind from read_ebp(). -/
def mon_backtrace (argv : List String) (m : Machine) (tf : Option Trapframe) : HRes :=
  match m.curenv with
  | none => .fault [Out.btHeader]
  | some id =>
    let r := btLoop m.memw m.dbg true m.fuel m.ebp0
    if r.2 then .ret m tf (Out.btHeader :: Out.btInfo id :: r.1) 0
    else .diverged (Out.btHeader :: Out.btInfo id :: r.1)

/-- mon_continue (kern/monitor.c:323): with no trapframe report and
return 0; otherwise clear FL_TF in the saved eflags (32-bit and with
the complement mask) and return -1. -/
def mon_continue (argv : List String) (m : Machine) (tf : Option Trapframe) : HRes :=
  match tf with
  | none => .ret m none [Out.noTrapframe] 0
  | some t => .ret m (some { tf_eflags := t.tf_eflags &&& 0xFFFFFEFF }) [] (-1)

/-- mon_step (kern/monitor.c:335): with no trapframe report and return
0; otherwise set FL_TF in the saved eflags and return -1. -/
def mon_step (argv : List String) (m : Machine) (tf : Option Trapframe) : HRes :=
  match tf with
  | none => .ret m none [Out.noTrapframe] 0
  | some t => .ret m (some { tf_eflags := t.tf_eflags ||| FL_TF }) [] (-1)

/-- The name/description columns of the static command table. -/
def commandInfos : List (String × String) :=
  [("help", "Display this list of commands"),
   ("kerninfo", "Display information about the kernel"),
   ("backtrace", "Display stack backtrace"),
   ("shutdown", "Shutdown the kernel"),
   ("restart", "Restart the kernel"),
   ("showmappings", "Show memory mappings"),
   ("setperm", "Set permission for memory mappings"),
   ("dump", "Dump a range of memory"),
   ("c", "Continue the execution (for debug)"),
   ("s", "Continue the execution by step (for debug)")]

/-- mon_help (kern/monitor.c:49): one line per table entry, in table
order; returns 0. -/
def mon_help (argv : List String) (m : Machine) (tf : Option Trapframe) : HRes :=
  .ret m tf (commandInfos.map fun p => Out.helpLine p.1 p.2) 0

/-- mon_kerninfo (kern/monitor.c:59): prints the linker symbols and
footprint (values live in external linker symbols, abstracted into a
single event); returns 0. -/
def mon_kerninfo (argv : List String) (m : Machine) (tf : Option Trapframe) : HRes :=
  .ret m tf [Out.kerninfoOut] 0

/-- mon_shutdown (kern/monitor.c:122): port output and int3 are
external effects; the function body then returns 0. -/
def mon_shutdown (argv : List String) (m : Machine) (tf : Option Trapframe) : HRes :=
  .ret m tf [] 0

/-- mon_restart (kern/monitor.c:134): keyboard-controller reset (an
external effect), then panic: the handler never returns. -/
def mon_restart (argv : List String) (m : Machine) (tf : Option Trapframe) : HRes :=
  .panicked [] "Restart failed!"

/-- The static command table (kern/monitor.c:29): names, descriptions
and handler functions, in source order. -/
def commands : List (String × String × (List String → Machine → Option Trapframe → HRes)) :=
  [("help", "Display this list of commands", mon_help),
   ("kerninfo", "Display information about the kernel", mon_kerninfo),
   ("backtrace", "Display stack backtrace", mon_backtrace),
   ("shutdown", "Shutdown the kernel", mon_shutdown),
   ("restart", "Restart the kernel", mon_restart),
   ("showmappings", "Show memory mappings", mon_showmappings),
   ("setperm", "Set permission for memory mappings", mon_setperm),
   ("dump", "Dump a range of memory", mon_dump),
   ("c", "Continue the execution (for debug)", mon_continue),
   ("s", "Continue the execution by step (for debug)", mon_step)]

/-- The WHITESPACE delimiter set of runcmd (tab, carriage return,
newline, space). -/
def WHITESPACE : List Char := [Char.ofNat 9, Char.ofNat 13, Char.ofNat 10, ' ']

/-- Whitespace test (strchr(WHITESPACE, c) of the source). -/
def isWS (c : Char) : Bool := WHITESPACE.contains c

/-- Result of tokenizing one line: the argument list, the too-many-
arguments abort, or fuel exhaustion (unreachable with the fuel chosen
by `tokenize`, since every iteration consumes at least one
character). -/
inductive TokRes where
  | ok (args : List String)
  | tooMany
  | outOfFuel
deriving DecidableEq

/-- The argument-gathering loop of runcmd (kern/monitor.c:363): gobble
whitespace; stop at the terminator; abort with a diagnostic when
argc reaches MAXARGS - 1; otherwise record the token and scan past
it. -/
def tokLoop : Nat → List Char → Nat → TokRes
  | 0, _, _ => .outOfFuel
  | fuel + 1, buf, argc =>
    let b := buf.dropWhile isWS
    if b.isEmpty then .ok []
    else if argc = MAXARGS - 1 then .tooMany
    else
      match tokLoop fuel (b.dropWhile fun c => !isWS c) (argc + 1) with
      | .ok rest => .ok (String.mk (b.takeWhile fun c => !isWS c) :: rest)
      | r => r

/-- Tokenization of one input line, as performed by runcmd before
dispatch. -/
def tokenize (line : String) : TokRes := tokLoop (line.length + 1) line.toList 0

/-- runcmd (kern/monitor.c:353): tokenize the line; on the too-many-
arguments abort print the diagnostic and return 0; on an empty
argument list return 0 with no dispatch; otherwise linearly scan the
command table by exact name match and invoke the handler, or report an
unknown command. -/
def runcmd (line : String) (m : Machine) (tf : Option Trapframe) : HRes :=
  match tokenize line with
  | .outOfFuel => .diverged []
  | .tooMany => .ret m tf [Out.tooManyArgs] 0
  | .ok [] => .ret m tf [] 0
  | .ok (a0 :: rest) =>
    match commands.find? fun c => c.1 = a0 with
    | some c => c.2.2 (a0 :: rest) m tf
    | none => .ret m tf [Out.unknownCmd a0] 0

/-- Concrete machine used by witnesses: empty page table, zero memory,
no current environment. -/
def M0 : Machine :=
  { pt := fun _ => none, mem := fun _ => 0, memw := fun _ => 0,
    curenv := none, ebp0 := 0,
    dbg := fun _ => { eip_file := "f", eip_line := 0, eip_fn_name := "fn",
                      eip_fn_namelen := 2, eip_fn_addr := 0 },
    parse := fun _ => 0, fuel := 8 }

/-- Concrete machine used by witnesses: like M0 but with a current
environment of id 7. -/
def M1 : Machine := { M0 with curenv := some 7 }

/-- The debug_flag computed on entry to monitor (kern/monitor.c:422):
a trapframe is present and its saved FL_TF is set. -/
def debugFlag (tf : Option Trapframe) : Bool :=
  match tf with
  | none => false
  | some t => t.tf_eflags &&& FL_TF ≠ 0

/-- The per-iteration prompt of the monitor loop (kern/monitor.c:440):
in debug mode it reads curenv->env_id — modelled as `none` (a fault)
when curenv is null — otherwise it prints the K prompt. -/
def monitorPrompt (debug : Bool) (curenv : Option Nat) : Option Out :=
  if debug then curenv.map fun id => Out.debugPrompt id
  else some Out.kPrompt

/-! Helper lemmas: the return value of every handler that returns
normally, used for the only-c-and-s-exit property. -/

theorem mon_help_ret {argv m tf m' tf' out v}
    (h : mon_help argv m tf = HRes.ret m' tf' out v) : v = 0 := by
  simp only [mon_help, HRes.ret.injEq] at h
  omega

theorem mon_kerninfo_ret {argv m tf m' tf' out v}
    (h : mon_kerninfo argv m tf = HRes.ret m' tf' out v) : v = 0 := by
  simp only [mon_kerninfo, HRes.ret.injEq] at h
  omega

theorem mon_shutdown_ret {argv m tf m' tf' out v}
    (h : mon_shutdown argv m tf = HRes.ret m' tf' out v) : v = 0 := by
  simp only [mon_shutdown, HRes.ret.injEq] at h
  omega

theorem mon_backtrace_ret {argv m tf m' tf' out v}
    (h : mon_backtrace argv m tf = HRes.ret m' tf' out v) : v = 0 := by
  unfold mon_backtrace at h
  split at h
  · cases h
  · dsimp only at h
    split at h
    · simp only [HRes.ret.injEq] at h
      omega
    · cases h

theorem mon_showmappings_ret {argv m tf m' tf' out v}
    (h : mon_showmappings argv m tf = HRes.ret m' tf' out v) : v = 0 := by
  simp only [mon_showmappings, __mon_showmappings3] at h
  repeat' split at h
  all_goals simp only [HRes.ret.injEq] at h
  all_goals omega

theorem mon_setperm_ret {argv m tf m' tf' out v}
    (h : mon_setperm argv m tf = HRes.ret m' tf' out v) : v = 0 := by
  simp only [mon_setperm, __mon_setperm4] at h
  repeat' split at h
  all_goals simp only [HRes.ret.injEq] at h
  all_goals omega

theorem mon_dump_ret {argv m tf m' tf' out v}
    (h : mon_dump argv m tf = HRes.ret m' tf' out v) : v = 0 := by
  simp only [mon_dump, __mon_dump4v, __mon_dump4p] at h
  repeat' split at h
  all_goals simp only [HRes.ret.injEq] at h
  all_goals omega

/-- C2: with a null trapframe, `c` and `s` report "No trapframe
found." and return 0; with a present trapframe, `c` clears the
trap-flag bit (bit 8) of the saved eflags and `s` sets it, each
returning -1; and across the whole command table, a handler returning
-1 must be `c` or `s`. -/
theorem C2_exec_control :
    (∀ (argv : List String) (m : Machine),
        mon_continue argv m none = HRes.ret m none [Out.noTrapframe] 0) ∧
    (∀ (argv : List String) (m : Machine) (t : Trapframe),
        mon_continue argv m (some t) =
          HRes.ret m (some { tf_eflags := t.tf_eflags &&& 0xFFFFFEFF }) [] (-1) ∧
        (t.tf_eflags &&& 0xFFFFFEFF).testBit 8 = false) ∧
    (∀ (argv : List String) (m : Machine),
        mon_step argv m none = HRes.ret m none [Out.noTrapframe] 0) ∧
    (∀ (argv : List String) (m : Machine) (t : Trapframe),
        mon_step argv m (some t) =
          HRes.ret m (some { tf_eflags := t.tf_eflags ||| FL_TF }) [] (-1) ∧
        (t.tf_eflags ||| FL_TF).testBit 8 = true) ∧
    (∀ e ∈ commands, ∀ argv m tf m' tf' out v,
        e.2.2 argv m tf = HRes.ret m' tf' out v → v = -1 →
        e.1 = "c" ∨ e.1 = "s") := by
  refine ⟨fun argv m => rfl, fun argv m t => ⟨rfl, ?_⟩,
          fun argv m => rfl, fun argv m t => ⟨rfl, ?_⟩, ?_⟩
  · rw [Nat.testBit_land, show Nat.testBit 0xFFFFFEFF 8 = false from by decide]
    simp
  · rw [FL_TF, Nat.testBit_lor, show Nat.testBit 0x100 8 = true from by decide]
    simp
  · intro e he argv m tf m' tf' out v h hv
    fin_cases he <;> dsimp only at h ⊢
    · exact absurd (mon_help_ret h) (by omega)
    · exact absurd (mon_kerninfo_ret h) (by omega)
    · exact absurd (mon_backtrace_ret h) (by omega)
    · exact absurd (mon_shutdown_ret h) (by omega)
    · simp [mon_restart] at h
    · exact absurd (mon_showmappings_ret h) (by omega)
    · exact absurd (mon_setperm_ret h) (by omega)
    · exact absurd (mon_dump_ret h) (by omega)
    · exact Or.inl rfl
    · exact Or.inr rfl

/-- Witness for C2 at concrete inputs: a trapframe with eflags 0x102
has its trap flag cleared by `c` and kept set by `s`, both returning
-1, and the `c` entry of the table satisfies the only-exit
property. -/
theorem C2_exec_control_witness :
    mon_continue ["c"] M0 (some { tf_eflags := 0x102 }) =
      HRes.ret M0 (some { tf_eflags := 0x102 &&& 0xFFFFFEFF }) [] (-1) ∧
    mon_step ["s"] M0 (some { tf_eflags := 0x2 }) =
      HRes.ret M0 (some { tf_eflags := 0x2 ||| FL_TF }) [] (-1) := by
  refine ⟨(C2_exec_control.2.1 ["c"] M0 { tf_eflags := 0x102 }).1,
          (C2_exec_control.2.2.2.1 ["s"] M0 { tf_eflags := 0x2 }).1⟩

/-- C10: mon_backtrace reads curenv->env_id right after the header and
before examining any frame, so with a null curenv it faults having
printed only the header, whatever the frame pointer; with a present
curenv it never faults.  The debug-mode prompt of the monitor loop
likewise dereferences curenv each iteration, while the normal prompt
does not touch it. -/
theorem C10_curenv_precondition :
    (∀ argv m tf, m.curenv = none → mon_backtrace argv m tf = HRes.fault [Out.btHeader]) ∧
    (∀ argv m tf id, m.curenv = some id → ∀ o, mon_backtrace argv m tf ≠ HRes.fault o) ∧
    monitorPrompt true none = none ∧
    (∀ id, monitorPrompt true (some id) = some (Out.debugPrompt id)) ∧
    (∀ c, monitorPrompt false c = some Out.kPrompt) := by
  refine ⟨?_, ?_, rfl, fun id => rfl, fun c => rfl⟩
  · intro argv m tf h
    unfold mon_backtrace
    rw [h]
  · intro argv m tf id h o
    unfold mon_backtrace
    rw [h]
    dsimp only
    split <;> intro hc <;> cases hc

/-- Witness for C10 at concrete inputs: on M0 (no current environment)
backtrace faults with only the header printed, even though the frame
pointer is null; on M1 it does not fault; the debug prompt faults on a
null curenv. -/
theorem C10_curenv_precondition_witness :
    mon_backtrace ["backtrace"] M0 none = HRes.fault [Out.btHeader] ∧
    mon_backtrace ["backtrace"] M1 none ≠ HRes.fault [] ∧
    monitorPrompt true none = none ∧
    monitorPrompt true (some 7) = some (Out.debugPrompt 7) ∧
    monitorPrompt false none = some Out.kPrompt :=
  ⟨C10_curenv_precondition.1 ["backtrace"] M0 none rfl,
   C10_curenv_precondition.2.1 ["backtrace"] M1 none 7 rfl [],
   C10_curenv_precondition.2.2.1,
   C10_curenv_precondition.2.2.2.1 7,
   C10_curenv_precondition.2.2.2.2 none⟩

/-! Arithmetic helper lemmas. -/

theorem roundup_eq (a : Nat) : ROUNDUP a PGSIZE = a ↔ a % PGSIZE = 0 := by
  unfold ROUNDUP PGSIZE
  omega

theorem toInt32_small (n : Nat) (h : n < 2 ^ 31) : toInt32 n = n := by
  unfold toInt32
  rw [Nat.mod_eq_of_lt (by omega)]
  rw [if_pos h]

theorem toInt32_high (n : Nat) (h1 : 2 ^ 31 ≤ n) (h2 : n < 2 ^ 32) :
    toInt32 n = (n : Int) - 2 ^ 32 := by
  unfold toInt32
  rw [Nat.mod_eq_of_lt h2]
  rw [if_neg (by omega)]

/-- Concrete machine for range-validation witnesses: the parser maps
"0x2000" to 8192 and everything else to 4096. -/
def Mcx : Machine := { M0 with parse := fun s => if s = "0x2000" then 8192 else 4096 }

/-- C8: tokenizing "  a   b  c " yields exactly [a, b, c]; an
all-whitespace (or empty) line tokenizes to the empty argument list
and runcmd performs no dispatch; a line with 16 tokens aborts
tokenization with the too-many-arguments diagnostic and runcmd
dispatches nothing, returning 0. -/
theorem C8_tokenizer :
    tokenize "  a   b  c " = TokRes.ok ["a", "b", "c"] ∧
    (∀ (line : String) (m : Machine) (tf : Option Trapframe),
        (∀ c ∈ line.toList, isWS c) →
        tokenize line = TokRes.ok [] ∧ runcmd line m tf = HRes.ret m tf [] 0) ∧
    tokenize "a b c d e f g h i j k l m n o p" = TokRes.tooMany ∧
    (∀ (line : String) (m : Machine) (tf : Option Trapframe),
        tokenize line = TokRes.tooMany →
        runcmd line m tf = HRes.ret m tf [Out.tooManyArgs] 0) := by
  refine ⟨by decide, ?_, by decide, ?_⟩
  · intro line m tf h
    have ht : tokenize line = TokRes.ok [] := by
      unfold tokenize
      rw [tokLoop]
      rw [show line.toList.dropWhile isWS = [] from List.dropWhile_eq_nil_iff.mpr h]
      rfl
    refine ⟨ht, ?_⟩
    unfold runcmd
    rw [ht]
  · intro line m tf h
    unfold runcmd
    rw [h]

/-- Witness for C8: a three-space line tokenizes to no arguments with
no dispatch, and the concrete 16-token line aborts with the
diagnostic and no dispatch. -/
theorem C8_tokenizer_witness :
    tokenize "   " = TokRes.ok [] ∧
    runcmd "   " M0 none = HRes.ret M0 none [] 0 ∧
    runcmd "a b c d e f g h i j k l m n o p" M0 none =
      HRes.ret M0 none [Out.tooManyArgs] 0 :=
  ⟨(C8_tokenizer.2.1 "   " M0 none (by decide)).1,
   (C8_tokenizer.2.1 "   " M0 none (by decide)).2,
   C8_tokenizer.2.2.2 _ M0 none C8_tokenizer.2.2.1⟩

/-- Unrolling of the showmappings loop: n iterations from a visit the
n consecutive pages a, a + PGSIZE, ..., in ascending order, each
exactly once. -/
theorem smLoop_eq (pt : Nat → Option Nat) :
    ∀ n a, smLoop pt n a = ((List.range n).map fun k => smPage pt (a + k * PGSIZE)).flatten := by
  intro n
  induction n with
  | zero => intro a; rfl
  | succ n ih =>
    intro a
    rw [smLoop, ih (a + PGSIZE), List.range_succ_eq_map]
    rw [List.map_cons, List.map_map, List.flatten_cons]
    have h0 : a + 0 * PGSIZE = a := by ring
    rw [h0]
    have hm : (List.range n).map ((fun k => smPage pt (a + k * PGSIZE)) ∘ Nat.succ) =
        (List.range n).map fun k => smPage pt (a + PGSIZE + k * PGSIZE) := by
      apply List.map_congr_left
      intro k _
      simp only [Function.comp_apply, Nat.succ_eq_add_one]
      have harith : a + (k + 1) * PGSIZE = a + PGSIZE + k * PGSIZE := by ring
      rw [harith]
    rw [hm]

/-- C4: on a page-aligned range with start < end, __mon_showmappings3
prints the header and then visits exactly (end - start) / PGSIZE
pages, each exactly once and in ascending address order; a page with
an entry yields its physical frame base and the 4-character
permission string (U or dash, R always, W or dash, P or dash); a page
without an entry yields the not-mapped report. -/
theorem C4_showmappings (pt : Nat → Option Nat) (s e : Nat)
    (hs : s % PGSIZE = 0) (he : e % PGSIZE = 0) (hlt : s < e) :
    (__mon_showmappings3 pt s e).1 =
      Out.smHeader ::
        ((List.range ((e - s) / PGSIZE)).map fun k => smPage pt (s + k * PGSIZE)).flatten ∧
    (∀ a, pt (a / PGSIZE) = none →
        smPage pt a = [Out.smRange a (a + PGSIZE), Out.smNotMapped]) ∧
    (∀ a pte, pt (a / PGSIZE) = some pte →
        smPage pt a = [Out.smRange a (a + PGSIZE),
                       Out.smEntry (PTE_ADDR pte) (permStr pte)]) ∧
    (∀ pte, (permStr pte).toList =
        [if pte &&& PTE_U ≠ 0 then 'U' else '-', 'R',
         if pte &&& PTE_W ≠ 0 then 'W' else '-',
         if pte &&& PTE_P ≠ 0 then 'P' else '-'] ∧
      (permStr pte).length = 4) := by
  refine ⟨?_, ?_, ?_, ?_⟩
  · unfold __mon_showmappings3
    rw [smLoop_eq]
    have hc : (e - s + PGSIZE - 1) / PGSIZE = (e - s) / PGSIZE := by
      unfold PGSIZE at *
      omega
    rw [hc]
  · intro a ha
    unfold smPage
    rw [ha]
  · intro a pte ha
    unfold smPage
    rw [ha]
  · intro pte
    constructor
    · unfold permStr
      split_ifs <;> rfl
    · unfold permStr
      split_ifs <;> rfl

/-- Concrete page table for witnesses: page 1 mapped with a
present-only entry at frame 0x2000, everything else unmapped. -/
def ptW : Nat → Option Nat := fun p => if p = 1 then some 0x2001 else none

/-- Witness for C4 on ptW over the aligned range 0x1000..0x3000. -/
theorem C4_showmappings_witness :
    (__mon_showmappings3 ptW 4096 12288).1 =
      Out.smHeader ::
        ((List.range ((12288 - 4096) / PGSIZE)).map fun k => smPage ptW (4096 + k * PGSIZE)).flatten :=
  (C4_showmappings ptW 4096 12288 (by decide) (by decide) (by decide)).1

/-- The dump loop runs zero iterations whenever end ≤ start with both
bounds in the same signed 32-bit half. -/
theorem dumpCount_zero_V (s e : Nat) (hle : e ≤ s)
    (hh : s < 2 ^ 31 ∨ (2 ^ 31 ≤ e ∧ s < 2 ^ 32)) :
    (toInt32 e - toInt32 s).toNat = 0 := by
  unfold toInt32
  split_ifs <;> (push_cast; omega)

/-- The physical dump loop runs zero iterations whenever end ≤ start
with both KERNBASE-translated bounds in the same signed 32-bit
half. -/
theorem dumpCount_zero_P (s e : Nat) (hle : e ≤ s)
    (hh : s < 2 ^ 28 ∨ (2 ^ 28 ≤ e ∧ s < 2 ^ 31 + 2 ^ 28)) :
    (toInt32 (KADDR e) - toInt32 (KADDR s)).toNat = 0 := by
  unfold toInt32 KADDR KERNBASE
  split_ifs <;> (push_cast; omega)

/-- C1 (amended): showmappings and setperm reject a parsed range whose
bounds are not both page-aligned or with start ≥ end, emitting only
the Invalid address diagnostic, leaving the machine unchanged and
returning 0; dump performs no such validation: with start ≥ end it
emits no diagnostic at all, reads nothing, and prints only the
trailing newline (for V whenever both bounds lie in the same signed
32-bit half, for P whenever both KERNBASE-translated bounds do). -/
theorem C1_validation :
    (∀ (m : Machine) (tf : Option Trapframe) (a1 a2 : String),
        ¬(m.parse a1 % PGSIZE = 0 ∧ m.parse a2 % PGSIZE = 0 ∧ m.parse a1 < m.parse a2) →
        mon_showmappings ["showmappings", a1, a2] m tf = HRes.ret m tf [Out.invalidAddress] 0) ∧
    (∀ (m : Machine) (tf : Option Trapframe) (p a1 a2 : String),
        ¬(m.parse a1 % PGSIZE = 0 ∧ m.parse a2 % PGSIZE = 0 ∧ m.parse a1 < m.parse a2) →
        mon_setperm ["setperm", p, a1, a2] m tf = HRes.ret m tf [Out.invalidAddress] 0) ∧
    (∀ (m : Machine) (tf : Option Trapframe) (a1 a2 : String),
        m.parse a2 ≤ m.parse a1 →
        (m.parse a1 < 2 ^ 31 ∨ (2 ^ 31 ≤ m.parse a2 ∧ m.parse a1 < 2 ^ 32)) →
        mon_dump ["dump", "V", a1, a2] m tf = HRes.ret m tf [Out.newline] 0) ∧
    (∀ (m : Machine) (tf : Option Trapframe) (a1 a2 : String),
        m.parse a2 ≤ m.parse a1 →
        (m.parse a1 < 2 ^ 28 ∨ (2 ^ 28 ≤ m.parse a2 ∧ m.parse a1 < 2 ^ 31 + 2 ^ 28)) →
        mon_dump ["dump", "P", a1, a2] m tf = HRes.ret m tf [Out.newline] 0) := by
  refine ⟨?_, ?_, ?_, ?_⟩
  · intro m tf a1 a2 hn
    have hC : m.parse a1 ≠ ROUNDUP (m.parse a1) PGSIZE ∨
        m.parse a2 ≠ ROUNDUP (m.parse a2) PGSIZE ∨ m.parse a1 ≥ m.parse a2 := by
      by_contra hc
      push_neg at hc
      exact hn ⟨(roundup_eq _).mp hc.1.symm, (roundup_eq _).mp hc.2.1.symm, hc.2.2⟩
    show (if m.parse a1 ≠ ROUNDUP (m.parse a1) PGSIZE ∨
            m.parse a2 ≠ ROUNDUP (m.parse a2) PGSIZE ∨ m.parse a1 ≥ m.parse a2 then
          HRes.ret m tf [Out.invalidAddress] 0
        else
          HRes.ret m tf (__mon_showmappings3 m.pt (m.parse a1) (m.parse a2)).1
            (__mon_showmappings3 m.pt (m.parse a1) (m.parse a2)).2) =
      HRes.ret m tf [Out.invalidAddress] 0
    rw [if_pos hC]
  · intro m tf p a1 a2 hn
    have hC : m.parse a1 ≠ ROUNDUP (m.parse a1) PGSIZE ∨
        m.parse a2 ≠ ROUNDUP (m.parse a2) PGSIZE ∨ m.parse a1 ≥ m.parse a2 := by
      by_contra hc
      push_neg at hc
      exact hn ⟨(roundup_eq _).mp hc.1.symm, (roundup_eq _).mp hc.2.1.symm, hc.2.2⟩
    show (if m.parse a1 ≠ ROUNDUP (m.parse a1) PGSIZE ∨
            m.parse a2 ≠ ROUNDUP (m.parse a2) PGSIZE ∨ m.parse a1 ≥ m.parse a2 then
          HRes.ret m tf [Out.invalidAddress] 0
        else if (p.toList.getD 0 (Char.ofNat 0) ≠ '-' ∧ p.toList.getD 0 (Char.ofNat 0) ≠ 'U') ∨
            (p.toList.getD 1 (Char.ofNat 0) ≠ '-' ∧ p.toList.getD 1 (Char.ofNat 0) ≠ 'W') then
          HRes.ret m tf [Out.invalidPerm] 0
        else
          HRes.ret { m with pt := (__mon_setperm4 m.pt (m.parse a1) (m.parse a2) p).1 } tf
            (__mon_setperm4 m.pt (m.parse a1) (m.parse a2) p).2.1
            (__mon_setperm4 m.pt (m.parse a1) (m.parse a2) p).2.2) =
      HRes.ret m tf [Out.invalidAddress] 0
    rw [if_pos hC]
  · intro m tf a1 a2 hle hh
    show HRes.ret m tf (__mon_dump4v m.mem (m.parse a1) (m.parse a2)).1
        (__mon_dump4v m.mem (m.parse a1) (m.parse a2)).2 = HRes.ret m tf [Out.newline] 0
    unfold __mon_dump4v dumpLoop
    rw [dumpCount_zero_V (m.parse a1) (m.parse a2) hle hh]
    rfl
  · intro m tf a1 a2 hle hh
    show HRes.ret m tf (__mon_dump4p m.mem (m.parse a1) (m.parse a2)).1
        (__mon_dump4p m.mem (m.parse a1) (m.parse a2)).2 = HRes.ret m tf [Out.newline] 0
    unfold __mon_dump4p dumpLoop
    rw [dumpCount_zero_P (m.parse a1) (m.parse a2) hle hh]
    rfl

/-- Counterexample to C1 as stated: dump with start = 8192 ≥ end =
4096 reports no diagnostic at all — the output is just the trailing
newline, with no Invalid address (or any other) message, while the
claim requires a diagnostic for every command of the three. -/
theorem C1_counterexample :
    mon_dump ["dump", "V", "0x2000", "0x1000"] Mcx none = HRes.ret Mcx none [Out.newline] 0 ∧
    Mcx.parse "0x2000" ≥ Mcx.parse "0x1000" ∧
    Out.invalidAddress ∉ [Out.newline] := by
  refine ⟨rfl, by decide, by decide⟩

/-- Concrete machine for the negative-half dump witness: the parser
maps "0xF0001000" to 0xF0001000 and everything else to 0xF0000000
(kernel virtual addresses, negative as signed 32-bit ints). -/
def Mneg : Machine :=
  { M0 with parse := fun s => if s = "0xF0001000" then 0xF0001000 else 0xF0000000 }

/-- Witness for C1 (amended) at concrete inputs: unaligned bounds are
rejected by showmappings and setperm; dump V over the reversed
positive-half range 0x2000..0x1000, dump V over the reversed
negative-half kernel range 0xF0001000..0xF0000000, and dump P over
the reversed range 0x2000..0x1000 all silently dump nothing. -/
theorem C1_validation_witness :
    mon_showmappings ["showmappings", "a", "b"] Mcx none =
      HRes.ret Mcx none [Out.invalidAddress] 0 ∧
    mon_setperm ["setperm", "UW", "a", "b"] Mcx none =
      HRes.ret Mcx none [Out.invalidAddress] 0 ∧
    mon_dump ["dump", "V", "0x2000", "0x1000"] Mcx none =
      HRes.ret Mcx none [Out.newline] 0 ∧
    mon_dump ["dump", "V", "0xF0001000", "0xF0000000"] Mneg none =
      HRes.ret Mneg none [Out.newline] 0 ∧
    mon_dump ["dump", "P", "0x2000", "0x1000"] Mcx none = HRes.ret Mcx none [Out.newline] 0 :=
  ⟨C1_validation.1 Mcx none "a" "b" (by decide),
   C1_validation.2.1 Mcx none "UW" "a" "b" (by decide),
   C1_validation.2.2.1 Mcx none "0x2000" "0x1000" (by decide) (by decide),
   C1_validation.2.2.1 Mneg none "0xF0001000" "0xF0000000" (by decide) (by decide),
   C1_validation.2.2.2 Mcx none "0x2000" "0x1000" (by decide) (by decide)⟩

/-! Bit-level facts about applyPerm. -/

theorem testBit_ge32 (x i : Nat) (hx : x < 2 ^ 32) (hi : 32 ≤ i) : x.testBit i = false :=
  Nat.testBit_lt_two_pow (lt_of_lt_of_le hx (Nat.pow_le_pow_right (by norm_num) hi))

theorem testBit_maskU (i : Nat) (hi : i < 32) (h : i ≠ 2) :
    Nat.testBit 0xFFFFFFFB i = true := by
  interval_cases i <;> first | decide | exact absurd rfl h

theorem testBit_maskW (i : Nat) (hi : i < 32) (h : i ≠ 1) :
    Nat.testBit 0xFFFFFFFD i = true := by
  interval_cases i <;> first | decide | exact absurd rfl h

theorem testBit_PTE_U (i : Nat) (h : i ≠ 2) : Nat.testBit PTE_U i = false := by
  have : PTE_U = 2 ^ 2 := rfl
  rw [this]
  exact Nat.testBit_two_pow_of_ne (fun hc => h hc.symm)

theorem testBit_PTE_W (i : Nat) (h : i ≠ 1) : Nat.testBit PTE_W i = false := by
  have : PTE_W = 2 ^ 1 := rfl
  rw [this]
  exact Nat.testBit_two_pow_of_ne (fun hc => h hc.symm)

/-- applyPerm touches only bits 1 and 2 of a 32-bit entry. -/
theorem applyPerm_testBit (p0 p1 : Char) (x : Nat) (hx : x < 2 ^ 32) (i : Nat)
    (h1 : i ≠ 1) (h2 : i ≠ 2) : (applyPerm p0 p1 x).testBit i = x.testBit i := by
  rcases Nat.lt_or_ge i 32 with hi | hi
  · unfold applyPerm
    split_ifs <;>
      simp only [Nat.testBit_lor, Nat.testBit_land, testBit_PTE_U i h2, testBit_PTE_W i h1,
        testBit_maskU i hi h2, testBit_maskW i hi h1, Bool.or_false, Bool.and_true]
  · have hx1 : x.testBit i = false := testBit_ge32 x i hx hi
    have happ : applyPerm p0 p1 x < 2 ^ 32 := by
      unfold applyPerm PTE_U PTE_W
      split_ifs <;>
        exact Nat.bitwise_lt_two_pow (Nat.bitwise_lt_two_pow hx (by norm_num)) (by norm_num)
    rw [hx1, testBit_ge32 _ i happ hi]

/-- applyPerm preserves the physical frame base of a 32-bit entry. -/
theorem PTE_ADDR_applyPerm (p0 p1 : Char) (x : Nat) (hx : x < 2 ^ 32) :
    PTE_ADDR (applyPerm p0 p1 x) = PTE_ADDR x := by
  apply Nat.eq_of_testBit_eq
  intro i
  unfold PTE_ADDR
  rw [Nat.testBit_land, Nat.testBit_land]
  rcases Nat.lt_or_ge i 32 with hi | hi
  · by_cases h12 : i = 1 ∨ i = 2
    · rcases h12 with h | h <;> subst h
      · rw [show Nat.testBit 0xFFFFF000 1 = false from by decide]
        simp
      · rw [show Nat.testBit 0xFFFFF000 2 = false from by decide]
        simp
    · push_neg at h12
      rw [applyPerm_testBit p0 p1 x hx i h12.1 h12.2]
  · rw [testBit_ge32 0xFFFFF000 i (by norm_num) hi]
    simp

/-! Characterization of the setperm loop. -/

/-- The skip reports produced by the setperm loop: one skipUnmapped
line for each page of the range without an entry, in ascending
order. -/
def pageSkips (pt : Nat → Option Nat) (a n : Nat) : List Out :=
  ((List.range n).map fun j =>
    if pt (a / PGSIZE + j) = none then [Out.skipUnmapped (a + j * PGSIZE)] else []).flatten

theorem pageSkips_succ (pt : Nat → Option Nat) (a n : Nat) :
    pageSkips pt a (n + 1) =
      (if pt (a / PGSIZE) = none then [Out.skipUnmapped a] else []) ++
        pageSkips pt (a + PGSIZE) n := by
  have hdiv : (a + PGSIZE) / PGSIZE = a / PGSIZE + 1 :=
    Nat.add_div_right a (by norm_num [PGSIZE])
  have htail : (List.map ((fun j =>
      if pt (a / PGSIZE + j) = none then [Out.skipUnmapped (a + j * PGSIZE)] else []) ∘
        Nat.succ) (List.range n)).flatten = pageSkips pt (a + PGSIZE) n := by
    unfold pageSkips
    congr 1
    apply List.map_congr_left
    intro j _
    simp only [Function.comp_apply, Nat.succ_eq_add_one]
    rw [hdiv]
    have h1 : a / PGSIZE + 1 + j = a / PGSIZE + (j + 1) := by omega
    have h2 : a + PGSIZE + j * PGSIZE = a + (j + 1) * PGSIZE := by ring
    rw [h1, h2]
  show ((List.range (n + 1)).map fun j =>
      if pt (a / PGSIZE + j) = none then [Out.skipUnmapped (a + j * PGSIZE)] else []).flatten = _
  rw [List.range_succ_eq_map, List.map_cons, List.map_map, List.flatten_cons, htail]
  norm_num

theorem pageSkips_congr (pt pt' : Nat → Option Nat) (a n : Nat)
    (h : ∀ j < n, pt' (a / PGSIZE + j) = pt (a / PGSIZE + j)) :
    pageSkips pt' a n = pageSkips pt a n := by
  unfold pageSkips
  congr 1
  apply List.map_congr_left
  intro j hj
  rw [h j (List.mem_range.mp hj)]

/-- The page-table result of the setperm loop: pages of the iterated
range have applyPerm mapped over their (optional) entry, all others
are untouched. -/
theorem spLoop_pt (p0 p1 : Char) :
    ∀ n a pt p, (spLoop p0 p1 n a pt).1 p =
      if a / PGSIZE ≤ p ∧ p < a / PGSIZE + n then Option.map (applyPerm p0 p1) (pt p)
      else pt p := by
  intro n
  induction n with
  | zero =>
    intro a pt p
    rw [if_neg (by omega)]
    rfl
  | succ n ih =>
    intro a pt p
    have hdiv : (a + PGSIZE) / PGSIZE = a / PGSIZE + 1 :=
      Nat.add_div_right a (by norm_num [PGSIZE])
    rw [spLoop]
    cases hpt : pt (a / PGSIZE) with
    | none =>
      dsimp only
      rw [ih (a + PGSIZE) pt p, hdiv]
      by_cases hp : p = a / PGSIZE
      · subst hp
        rw [if_neg (by omega), if_pos (by omega), hpt]
        rfl
      · by_cases hin : a / PGSIZE ≤ p ∧ p < a / PGSIZE + (n + 1)
        · rw [if_pos (by omega), if_pos hin]
        · rw [if_neg (by omega), if_neg hin]
    | some x =>
      dsimp only
      rw [ih (a + PGSIZE) _ p, hdiv]
      unfold ptUpdate
      by_cases hp : p = a / PGSIZE
      · subst hp
        rw [if_neg (by omega), if_pos rfl, if_pos (by omega), hpt]
        rfl
      · by_cases hin : a / PGSIZE ≤ p ∧ p < a / PGSIZE + (n + 1)
        · rw [if_pos (by omega), if_neg hp, if_pos hin]
        · rw [if_neg (by omega), if_neg hp, if_neg hin]

/-- The output of the setperm loop is exactly the skip report of each
unmapped page of the range, judged against the original table. -/
theorem spLoop_out (p0 p1 : Char) :
    ∀ n a pt, (spLoop p0 p1 n a pt).2 = pageSkips pt a n := by
  intro n
  induction n with
  | zero => intro a pt; rfl
  | succ n ih =>
    intro a pt
    rw [spLoop, pageSkips_succ]
    cases hpt : pt (a / PGSIZE) with
    | none =>
      dsimp only
      rw [ih (a + PGSIZE) pt, if_pos rfl]
      rfl
    | some x =>
      dsimp only
      rw [ih (a + PGSIZE) _, if_neg (by simp [hpt])]
      rw [List.nil_append]
      apply pageSkips_congr
      intro j hj
      unfold ptUpdate
      have hdiv : (a + PGSIZE) / PGSIZE = a / PGSIZE + 1 :=
        Nat.add_div_right a (by norm_num [PGSIZE])
      rw [if_neg (by omega)]

/-- Concrete machine for setperm witnesses: page table ptW, parser
mapping "0x3000" to 12288 and everything else to 4096. -/
def Msp : Machine :=
  { M0 with pt := ptW, parse := fun s => if s = "0x3000" then 12288 else 4096 }

/-- C3: on an aligned range with start < end, setperm rejects a
permission code whose first character is neither U nor dash or whose
second is neither W nor dash, with only the Invalid permission
diagnostic and no mutation; with a valid code it maps applyPerm over
the entry of every page of the range (each bit set by U or W and
cleared by dash, independently), leaves every other page untouched,
and reports exactly the unmapped pages of the range as skipped; code
UW sets both the user (bit 2) and write (bit 1) bits, code dash-dash
clears both. -/
theorem C3_setperm :
    (∀ (m : Machine) (tf : Option Trapframe) (p a1 a2 : String),
        ((p.toList.getD 0 (Char.ofNat 0) ≠ '-' ∧ p.toList.getD 0 (Char.ofNat 0) ≠ 'U') ∨
         (p.toList.getD 1 (Char.ofNat 0) ≠ '-' ∧ p.toList.getD 1 (Char.ofNat 0) ≠ 'W')) →
        m.parse a1 % PGSIZE = 0 → m.parse a2 % PGSIZE = 0 → m.parse a1 < m.parse a2 →
        mon_setperm ["setperm", p, a1, a2] m tf = HRes.ret m tf [Out.invalidPerm] 0) ∧
    (∀ (m : Machine) (tf : Option Trapframe) (p a1 a2 : String),
        ¬((p.toList.getD 0 (Char.ofNat 0) ≠ '-' ∧ p.toList.getD 0 (Char.ofNat 0) ≠ 'U') ∨
          (p.toList.getD 1 (Char.ofNat 0) ≠ '-' ∧ p.toList.getD 1 (Char.ofNat 0) ≠ 'W')) →
        m.parse a1 % PGSIZE = 0 → m.parse a2 % PGSIZE = 0 → m.parse a1 < m.parse a2 →
        mon_setperm ["setperm", p, a1, a2] m tf =
          HRes.ret { m with pt := (fun q =>
              if m.parse a1 / PGSIZE ≤ q ∧ q < m.parse a2 / PGSIZE then
                Option.map (applyPerm (p.toList.getD 0 (Char.ofNat 0))
                  (p.toList.getD 1 (Char.ofNat 0))) (m.pt q)
              else m.pt q) } tf
            (pageSkips m.pt (m.parse a1) ((m.parse a2 - m.parse a1) / PGSIZE)) 0) ∧
    (∀ x, (applyPerm 'U' 'W' x).testBit 2 = true ∧ (applyPerm 'U' 'W' x).testBit 1 = true) ∧
    (∀ x, (applyPerm '-' '-' x).testBit 2 = false ∧ (applyPerm '-' '-' x).testBit 1 = false) := by
  refine ⟨?_, ?_, ?_, ?_⟩
  · intro m tf p a1 a2 hbad hs he hlt
    have hval : ¬(m.parse a1 ≠ ROUNDUP (m.parse a1) PGSIZE ∨
        m.parse a2 ≠ ROUNDUP (m.parse a2) PGSIZE ∨ m.parse a1 ≥ m.parse a2) := by
      push_neg
      exact ⟨((roundup_eq _).mpr hs).symm, ((roundup_eq _).mpr he).symm, hlt⟩
    show (if m.parse a1 ≠ ROUNDUP (m.parse a1) PGSIZE ∨
            m.parse a2 ≠ ROUNDUP (m.parse a2) PGSIZE ∨ m.parse a1 ≥ m.parse a2 then
          HRes.ret m tf [Out.invalidAddress] 0
        else if (p.toList.getD 0 (Char.ofNat 0) ≠ '-' ∧ p.toList.getD 0 (Char.ofNat 0) ≠ 'U') ∨
            (p.toList.getD 1 (Char.ofNat 0) ≠ '-' ∧ p.toList.getD 1 (Char.ofNat 0) ≠ 'W') then
          HRes.ret m tf [Out.invalidPerm] 0
        else
          HRes.ret { m with pt := (__mon_setperm4 m.pt (m.parse a1) (m.parse a2) p).1 } tf
            (__mon_setperm4 m.pt (m.parse a1) (m.parse a2) p).2.1
            (__mon_setperm4 m.pt (m.parse a1) (m.parse a2) p).2.2) =
      HRes.ret m tf [Out.invalidPerm] 0
    rw [if_neg hval, if_pos hbad]
  · intro m tf p a1 a2 hgood hs he hlt
    have hval : ¬(m.parse a1 ≠ ROUNDUP (m.parse a1) PGSIZE ∨
        m.parse a2 ≠ ROUNDUP (m.parse a2) PGSIZE ∨ m.parse a1 ≥ m.parse a2) := by
      push_neg
      exact ⟨((roundup_eq _).mpr hs).symm, ((roundup_eq _).mpr he).symm, hlt⟩
    have hcount : (m.parse a2 - m.parse a1 + PGSIZE - 1) / PGSIZE =
        (m.parse a2 - m.parse a1) / PGSIZE := by
      unfold PGSIZE at *
      omega
    have hup : m.parse a1 / PGSIZE + (m.parse a2 - m.parse a1 + PGSIZE - 1) / PGSIZE =
        m.parse a2 / PGSIZE := by
      unfold PGSIZE at *
      omega
    have hpt : (__mon_setperm4 m.pt (m.parse a1) (m.parse a2) p).1 = fun q =>
        if m.parse a1 / PGSIZE ≤ q ∧ q < m.parse a2 / PGSIZE then
          Option.map (applyPerm (p.toList.getD 0 (Char.ofNat 0))
            (p.toList.getD 1 (Char.ofNat 0))) (m.pt q)
        else m.pt q := by
      funext q
      unfold __mon_setperm4
      dsimp only
      rw [spLoop_pt, hup]
    have hout : (__mon_setperm4 m.pt (m.parse a1) (m.parse a2) p).2.1 =
        pageSkips m.pt (m.parse a1) ((m.parse a2 - m.parse a1) / PGSIZE) := by
      unfold __mon_setperm4
      dsimp only
      rw [spLoop_out, hcount]
    show (if m.parse a1 ≠ ROUNDUP (m.parse a1) PGSIZE ∨
            m.parse a2 ≠ ROUNDUP (m.parse a2) PGSIZE ∨ m.parse a1 ≥ m.parse a2 then
          HRes.ret m tf [Out.invalidAddress] 0
        else if (p.toList.getD 0 (Char.ofNat 0) ≠ '-' ∧ p.toList.getD 0 (Char.ofNat 0) ≠ 'U') ∨
            (p.toList.getD 1 (Char.ofNat 0) ≠ '-' ∧ p.toList.getD 1 (Char.ofNat 0) ≠ 'W') then
          HRes.ret m tf [Out.invalidPerm] 0
        else
          HRes.ret { m with pt := (__mon_setperm4 m.pt (m.parse a1) (m.parse a2) p).1 } tf
            (__mon_setperm4 m.pt (m.parse a1) (m.parse a2) p).2.1
            (__mon_setperm4 m.pt (m.parse a1) (m.parse a2) p).2.2) = _
    rw [if_neg hval, if_neg hgood, hpt, hout]
    rfl
  · intro x
    refine ⟨?_, ?_⟩
    · show ((x ||| PTE_U) ||| PTE_W).testBit 2 = true
      rw [Nat.testBit_lor, Nat.testBit_lor,
          show Nat.testBit PTE_U 2 = true from by decide,
          show Nat.testBit PTE_W 2 = false from by decide]
      simp
    · show ((x ||| PTE_U) ||| PTE_W).testBit 1 = true
      rw [Nat.testBit_lor, show Nat.testBit PTE_W 1 = true from by decide]
      simp
  · intro x
    refine ⟨?_, ?_⟩
    · show ((x &&& 0xFFFFFFFB) &&& 0xFFFFFFFD).testBit 2 = false
      rw [Nat.testBit_land, Nat.testBit_land,
          show Nat.testBit 0xFFFFFFFB 2 = false from by decide]
      simp
    · show ((x &&& 0xFFFFFFFB) &&& 0xFFFFFFFD).testBit 1 = false
      rw [Nat.testBit_land, show Nat.testBit 0xFFFFFFFD 1 = false from by decide]
      simp

/-- Witness for C3: setperm UW over 0x1000..0x3000 on Msp edits page 1
in place and reports page 2 as skipped. -/
theorem C3_setperm_witness :
    mon_setperm ["setperm", "UW", "0x1000", "0x3000"] Msp none =
      HRes.ret { Msp with pt := (fun q =>
          if Msp.parse "0x1000" / PGSIZE ≤ q ∧ q < Msp.parse "0x3000" / PGSIZE then
            Option.map (applyPerm ("UW".toList.getD 0 (Char.ofNat 0))
              ("UW".toList.getD 1 (Char.ofNat 0))) (Msp.pt q)
          else Msp.pt q) } none
        (pageSkips Msp.pt (Msp.parse "0x1000") ((Msp.parse "0x3000" - Msp.parse "0x1000") / PGSIZE)) 0 :=
  C3_setperm.2.1 Msp none "UW" "0x1000" "0x3000" (by decide) (by decide) (by decide) (by decide)

/-- C5: showmappings and dump return with the machine (in particular
the page table) unchanged whatever their arguments; __mon_setperm4
leaves every page outside the iterated range untouched, never creates
or destroys an entry (isSome is preserved pointwise), and on a
surviving entry preserves the physical frame base, the present bit,
and every bit other than the writable (1) and user (2) bits. -/
theorem C5_no_create_destroy :
    (∀ argv m tf, ∃ out, mon_showmappings argv m tf = HRes.ret m tf out 0) ∧
    (∀ argv m tf, ∃ out, mon_dump argv m tf = HRes.ret m tf out 0) ∧
    (∀ pt s e perm q, q < s / PGSIZE ∨ s / PGSIZE + (e - s + PGSIZE - 1) / PGSIZE ≤ q →
        (__mon_setperm4 pt s e perm).1 q = pt q) ∧
    (∀ pt s e perm q, ((__mon_setperm4 pt s e perm).1 q).isSome = (pt q).isSome) ∧
    (∀ pt s e perm q x y, pt q = some x → (__mon_setperm4 pt s e perm).1 q = some y →
        x < 2 ^ 32 →
        PTE_ADDR y = PTE_ADDR x ∧ y.testBit 0 = x.testBit 0 ∧
        ∀ i, i ≠ 1 → i ≠ 2 → y.testBit i = x.testBit i) := by
  refine ⟨?_, ?_, ?_, ?_, ?_⟩
  · intro argv m tf
    unfold mon_showmappings
    dsimp only
    repeat' split
    all_goals exact ⟨_, rfl⟩
  · intro argv m tf
    unfold mon_dump
    dsimp only
    repeat' split
    all_goals exact ⟨_, rfl⟩
  · intro pt s e perm q hq
    unfold __mon_setperm4
    dsimp only
    rw [spLoop_pt]
    rw [if_neg (by omega)]
  · intro pt s e perm q
    unfold __mon_setperm4
    dsimp only
    rw [spLoop_pt]
    split
    · exact Option.isSome_map'
    · rfl
  · intro pt s e perm q x y hx hy hlt
    unfold __mon_setperm4 at hy
    dsimp only at hy
    rw [spLoop_pt] at hy
    split at hy
    · rw [hx] at hy
      simp only [Option.map_some', Option.some.injEq] at hy
      subst hy
      refine ⟨PTE_ADDR_applyPerm _ _ x hlt, applyPerm_testBit _ _ x hlt 0 (by omega) (by omega),
        fun i h1 h2 => applyPerm_testBit _ _ x hlt i h1 h2⟩
    · rw [hx] at hy
      simp only [Option.some.injEq] at hy
      subst hy
      exact ⟨rfl, rfl, fun i _ _ => rfl⟩

/-- Witness for C5 at concrete inputs: after setperm UW over
0x1000..0x3000 on ptW, page 5 (outside the range) is untouched, page 1
still has an entry, and the edited entry 0x2007 agrees with the old
entry 0x2001 on the frame base, the present bit, and every bit other
than 1 and 2. -/
theorem C5_no_create_destroy_witness :
    (__mon_setperm4 ptW 4096 12288 "UW").1 5 = ptW 5 ∧
    ((__mon_setperm4 ptW 4096 12288 "UW").1 1).isSome = (ptW 1).isSome ∧
    (PTE_ADDR 8199 = PTE_ADDR 8193 ∧ Nat.testBit 8199 0 = Nat.testBit 8193 0 ∧
      ∀ i, i ≠ 1 → i ≠ 2 → Nat.testBit 8199 i = Nat.testBit 8193 i) :=
  ⟨C5_no_create_destroy.2.2.1 ptW 4096 12288 "UW" 5 (by decide),
   C5_no_create_destroy.2.2.2.1 ptW 4096 12288 "UW" 1,
   C5_no_create_destroy.2.2.2.2 ptW 4096 12288 "UW" 1 8193 8199 (by decide) (by decide)
     (by decide)⟩

/-! The dump loop, unrolled. -/

theorem dumpLoopAux_eq (mem : Nat → Nat) (phys : Bool) :
    ∀ (n : Nat) (i : Int), dumpLoopAux mem phys n i =
      ((List.range n).map fun k : Nat =>
        dumpStep mem phys (((i + (k : Int)) % (2 ^ 32)).toNat)).flatten := by
  intro n
  induction n with
  | zero => intro i; rfl
  | succ n ih =>
    intro i
    rw [dumpLoopAux, ih (i + 1), List.range_succ_eq_map]
    rw [List.map_cons, List.map_map, List.flatten_cons]
    have hhead : ((i + (((0 : Nat) : Int))) % (2 ^ 32)).toNat = (i % (2 ^ 32)).toNat := by
      norm_num
    rw [hhead]
    have htail : (List.range n).map ((fun k : Nat =>
        dumpStep mem phys (((i + (k : Int)) % (2 ^ 32)).toNat)) ∘ Nat.succ) =
        (List.range n).map fun k : Nat =>
          dumpStep mem phys (((i + 1 + (k : Int)) % (2 ^ 32)).toNat) := by
      apply List.map_congr_left
      intro k _
      simp only [Function.comp_apply, Nat.succ_eq_add_one]
      have h1 : i + ((k + 1 : Nat) : Int) = i + 1 + (k : Int) := by
        push_cast
        ring
      rw [h1]
    rw [htail]

/-- The bytes of a dump output (the claim's "byte sequence"). -/
def dumpBytes (out : List Out) : List Nat :=
  out.filterMap fun ev => match ev with
    | Out.dumpByte v => some v
    | _ => none

theorem dumpBytes_append (a b : List Out) : dumpBytes (a ++ b) = dumpBytes a ++ dumpBytes b :=
  List.filterMap_append a b _

theorem dumpStep_bytes (mem : Nat → Nat) (phys : Bool) (a : Nat) :
    dumpBytes (dumpStep mem phys a) = [mem a] := by
  unfold dumpStep dumpBytes
  split <;> rfl

theorem dumpLoopAux_bytes (mem : Nat → Nat) :
    ∀ (n : Nat) (i : Int),
      dumpBytes (dumpLoopAux mem true n i) = dumpBytes (dumpLoopAux mem false n i) := by
  intro n
  induction n with
  | zero => intro i; rfl
  | succ n ih =>
    intro i
    rw [dumpLoopAux, dumpLoopAux, dumpBytes_append, dumpBytes_append,
        dumpStep_bytes, dumpStep_bytes, ih (i + 1)]

/-- C7: over the same underlying memory, dump P on a physical range
and dump V on the corresponding translated virtual range produce
identical byte sequences (the outputs differ only in the printed
address prefixes). -/
theorem C7_dump_equiv (mem : Nat → Nat) (s e vs ve : Nat)
    (hvs : vs = KADDR s) (hve : ve = KADDR e) :
    dumpBytes (__mon_dump4p mem s e).1 = dumpBytes (__mon_dump4v mem vs ve).1 := by
  subst hvs hve
  unfold __mon_dump4p __mon_dump4v dumpLoop
  rw [dumpBytes_append, dumpBytes_append, dumpLoopAux_bytes]

/-- Witness for C7: physical range 0..3 against its translated virtual
range. -/
theorem C7_dump_equiv_witness :
    dumpBytes (__mon_dump4p (fun a => a % 256) 0 3).1 =
      dumpBytes (__mon_dump4v (fun a => a % 256) (KADDR 0) (KADDR 3)).1 :=
  C7_dump_equiv (fun a => a % 256) 0 3 (KADDR 0) (KADDR 3) rfl rfl

/-- The output shape asserted by the claim's words for dump: an
address-prefix line before the first byte and then before every 16th
byte counted from start. -/
def dumpEvery16 (mem : Nat → Nat) (s e : Nat) : List Out :=
  ((List.range (e - s)).map fun k =>
    (if k % 16 = 0 then [Out.dumpAddrLine (s + k)] else []) ++
      [Out.dumpByte (mem (s + k))]).flatten ++ [Out.newline]

/-- Counterexample to C6 as stated: dumping the virtual range 8..24
does not produce a prefix every 16 bytes from start — the code emits
the prefix before bytes at 16-aligned addresses, so here the first
eight bytes appear with no prefix and the prefix comes before the
ninth. -/
theorem C6_counterexample :
    (__mon_dump4v (fun _ => 0) 8 24).1 ≠ dumpEvery16 (fun _ => 0) 8 24 := by
  decide

/-- C6 (amended): for a virtual range lying within either signed
32-bit half, dump V renders exactly the bytes from start (inclusive)
to end (exclusive) as byte events in order, emitting the
address-prefix line before each byte whose address is divisible by 16
(so every 16 bytes only when start is 16-aligned), with no
translation; dump P (for ranges whose translation stays below 2^32)
reads each byte through the KERNBASE-translated address while the
printed prefix address stays the physical one. -/
theorem C6_dump_render :
    (∀ (mem : Nat → Nat) (s e : Nat), s ≤ e →
        (e < 2 ^ 31 ∨ (2 ^ 31 ≤ s ∧ e < 2 ^ 32)) →
        (__mon_dump4v mem s e).1 =
          ((List.range (e - s)).map fun k =>
            (if (s + k) % 16 = 0 then [Out.dumpAddrLine (s + k)] else []) ++
              [Out.dumpByte (mem (s + k))]).flatten ++ [Out.newline]) ∧
    (∀ (mem : Nat → Nat) (s e : Nat), s ≤ e → e < 2 ^ 28 →
        (__mon_dump4p mem s e).1 =
          ((List.range (e - s)).map fun k =>
            (if (s + k) % 16 = 0 then [Out.dumpAddrLine (s + k)] else []) ++
              [Out.dumpByte (mem (KERNBASE + (s + k)))]).flatten ++ [Out.newline]) := by
  constructor
  · intro mem s e hse hh
    unfold __mon_dump4v dumpLoop
    dsimp only
    rcases hh with hlt | ⟨hneg, hlt32⟩
    · rw [toInt32_small s (lt_of_le_of_lt hse hlt), toInt32_small e hlt]
      have hcount : ((e : Int) - (s : Int)).toNat = e - s := by omega
      rw [hcount, dumpLoopAux_eq]
      have hmap : (List.range (e - s)).map (fun k : Nat =>
          dumpStep mem false ((((s : Int) + (k : Int)) % (2 ^ 32)).toNat)) =
          (List.range (e - s)).map fun k =>
            (if (s + k) % 16 = 0 then [Out.dumpAddrLine (s + k)] else []) ++
              [Out.dumpByte (mem (s + k))] := by
        apply List.map_congr_left
        intro k hk
        have hklt : k < e - s := List.mem_range.mp hk
        have hemod : (((s : Int) + (k : Int)) % (2 ^ 32)).toNat = s + k := by omega
        rw [hemod]
        rfl
      rw [hmap]
    · rw [toInt32_high s hneg (lt_of_le_of_lt hse hlt32),
          toInt32_high e (le_trans hneg hse) hlt32]
      have hcount : ((e : Int) - 2 ^ 32 - ((s : Int) - 2 ^ 32)).toNat = e - s := by
        push_cast
        omega
      rw [hcount, dumpLoopAux_eq]
      have hmap : (List.range (e - s)).map (fun k : Nat =>
          dumpStep mem false ((((s : Int) - 2 ^ 32 + (k : Int)) % (2 ^ 32)).toNat)) =
          (List.range (e - s)).map fun k =>
            (if (s + k) % 16 = 0 then [Out.dumpAddrLine (s + k)] else []) ++
              [Out.dumpByte (mem (s + k))] := by
        apply List.map_congr_left
        intro k hk
        have hklt : k < e - s := List.mem_range.mp hk
        have hemod : (((s : Int) - 2 ^ 32 + (k : Int)) % (2 ^ 32)).toNat = s + k := by
          push_cast
          omega
        rw [hemod]
        rfl
      rw [hmap]
  · intro mem s e hse hlt
    unfold __mon_dump4p dumpLoop KADDR
    dsimp only
    rw [toInt32_high (s + KERNBASE) (by unfold KERNBASE; omega)
          (by unfold KERNBASE at *; omega),
        toInt32_high (e + KERNBASE) (by unfold KERNBASE; omega)
          (by unfold KERNBASE at *; omega)]
    have hcount : (((e + KERNBASE : Nat) : Int) - 2 ^ 32 -
        (((s + KERNBASE : Nat) : Int) - 2 ^ 32)).toNat = e - s := by
      push_cast
      omega
    rw [hcount, dumpLoopAux_eq]
    have hmap : (List.range (e - s)).map (fun k : Nat =>
        dumpStep mem true (((((s + KERNBASE : Nat) : Int) - 2 ^ 32 + (k : Int)) %
          (2 ^ 32)).toNat)) =
        (List.range (e - s)).map fun k =>
          (if (s + k) % 16 = 0 then [Out.dumpAddrLine (s + k)] else []) ++
            [Out.dumpByte (mem (KERNBASE + (s + k)))] := by
      apply List.map_congr_left
      intro k hk
      have hklt : k < e - s := List.mem_range.mp hk
      have hemod : ((((s + KERNBASE : Nat) : Int) - 2 ^ 32 + (k : Int)) % (2 ^ 32)).toNat =
          s + KERNBASE + k := by
        unfold KERNBASE at *
        push_cast
        omega
      rw [hemod]
      unfold dumpStep
      have h16 : (s + KERNBASE + k) % 16 = (s + k) % 16 := by
        unfold KERNBASE
        omega
      rw [h16]
      have hpaddr : PADDR (s + KERNBASE + k) = s + k := by
        unfold PADDR KERNBASE at *
        omega
      rw [hpaddr]
      have haddr : s + KERNBASE + k = KERNBASE + (s + k) := by omega
      rw [haddr]
      rfl
    rw [hmap]

/-- Witness for C6 (amended) at concrete inputs: the positive-half
virtual range 8..24, the negative-half virtual range
0xF0000008..0xF0000018, and the physical range 8..24. -/
theorem C6_dump_render_witness :
    (__mon_dump4v (fun a => a % 256) 8 24).1 =
      ((List.range (24 - 8)).map fun k =>
        (if (8 + k) % 16 = 0 then [Out.dumpAddrLine (8 + k)] else []) ++
          [Out.dumpByte ((fun a => a % 256) (8 + k))]).flatten ++ [Out.newline] ∧
    (__mon_dump4v (fun a => a % 256) 0xF0000008 0xF0000018).1 =
      ((List.range (0xF0000018 - 0xF0000008)).map fun k =>
        (if (0xF0000008 + k) % 16 = 0 then [Out.dumpAddrLine (0xF0000008 + k)] else []) ++
          [Out.dumpByte ((fun a => a % 256) (0xF0000008 + k))]).flatten ++ [Out.newline] ∧
    (__mon_dump4p (fun a => a % 256) 8 24).1 =
      ((List.range (24 - 8)).map fun k =>
        (if (8 + k) % 16 = 0 then [Out.dumpAddrLine (8 + k)] else []) ++
          [Out.dumpByte ((fun a => a % 256) (KERNBASE + (8 + k)))]).flatten ++ [Out.newline] :=
  ⟨C6_dump_render.1 (fun a => a % 256) 8 24 (by norm_num) (Or.inl (by norm_num)),
   C6_dump_render.1 (fun a => a % 256) 0xF0000008 0xF0000018 (by norm_num)
     (Or.inr ⟨by norm_num, by norm_num⟩),
   C6_dump_render.2 (fun a => a % 256) 8 24 (by norm_num) (by norm_num)⟩

/-- Concrete word memory for backtrace witnesses: the frame at 64
links to 32 (which lies below the kernel-stack region bound), all
other words are 0. -/
def mwW : Nat → Nat := fun a => if a = 64 then 32 else 0

/-- Concrete debug-info lookup for backtrace witnesses. -/
def dbgW : Nat → Eipdebuginfo := fun _ =>
  { eip_file := "f", eip_line := 0, eip_fn_name := "fn", eip_fn_namelen := 2, eip_fn_addr := 0 }

/-- C9: with a current environment present, backtrace on a null
initial frame pointer prints the header and the info line and no
frames; the unwind loop prints the current frame and then stops with
the boundary marker exactly when the next frame pointer falls below
KSTACKTOP - PTSIZE (which includes a null next pointer), continues
into the next frame otherwise, and when no current environment guards
the loop the boundary marker is never emitted. -/
theorem C9_backtrace_stops :
    (∀ (argv : List String) (m : Machine) (tf : Option Trapframe) (id : Nat),
        m.curenv = some id → m.ebp0 = 0 →
        mon_backtrace argv m tf = HRes.ret m tf [Out.btHeader, Out.btInfo id] 0) ∧
    (∀ (mw : Nat → Nat) (dbg : Nat → Eipdebuginfo) (n ebp : Nat), ebp ≠ 0 →
        mw ebp < KSTACKTOP - PTSIZE →
        btLoop mw dbg true (n + 1) ebp =
          (btFrameOut mw dbg ebp ++ [Out.btUserMarker (mw ebp)], true)) ∧
    (∀ (mw : Nat → Nat) (dbg : Nat → Eipdebuginfo) (n ebp : Nat), ebp ≠ 0 →
        ¬(mw ebp < KSTACKTOP - PTSIZE) →
        btLoop mw dbg true (n + 1) ebp =
          (btFrameOut mw dbg ebp ++ (btLoop mw dbg true n (mw ebp)).1,
           (btLoop mw dbg true n (mw ebp)).2)) ∧
    (∀ (mw : Nat → Nat) (dbg : Nat → Eipdebuginfo) (fuel ebp v : Nat),
        Out.btUserMarker v ∉ (btLoop mw dbg false fuel ebp).1) := by
  refine ⟨?_, ?_, ?_, ?_⟩
  · intro argv m tf id hcur hebp
    unfold mon_backtrace
    rw [hcur]
    dsimp only
    rw [hebp, btLoop.eq_def, if_pos rfl]
    rfl
  · intro mw dbg n ebp h0 hbelow
    conv_lhs => rw [btLoop.eq_def]
    rw [if_neg h0]
    dsimp only
    rw [if_pos ⟨rfl, hbelow⟩]
  · intro mw dbg n ebp h0 hge
    conv_lhs => rw [btLoop.eq_def]
    rw [if_neg h0]
    dsimp only
    rw [if_neg fun hc => hge hc.2]
  · intro mw dbg fuel
    induction fuel with
    | zero =>
      intro ebp v
      rw [btLoop.eq_def]
      by_cases h0 : ebp = 0
      · rw [if_pos h0]
        simp
      · rw [if_neg h0]
        simp
    | succ n ih =>
      intro ebp v
      rw [btLoop.eq_def]
      by_cases h0 : ebp = 0
      · rw [if_pos h0]
        simp
      · rw [if_neg h0]
        dsimp only
        rw [if_neg fun hc => by cases hc.1]
        dsimp only
        intro hmem
        rcases List.mem_append.mp hmem with h | h
        · simp [btFrameOut] at h
        · exact ih (mw ebp) v h

/-- Witness for C9 at concrete inputs: backtrace on M1 (null frame
pointer, curenv present) prints header and info only; the loop at
frame 64 whose next pointer 32 is below the kernel-stack region stops
with the marker; with the curenv guard false no marker appears. -/
theorem C9_backtrace_stops_witness :
    mon_backtrace ["backtrace"] M1 none = HRes.ret M1 none [Out.btHeader, Out.btInfo 7] 0 ∧
    btLoop mwW dbgW true (4 + 1) 64 =
      (btFrameOut mwW dbgW 64 ++ [Out.btUserMarker (mwW 64)], true) ∧
    Out.btUserMarker 5 ∉ (btLoop mwW dbgW false 3 64).1 :=
  ⟨C9_backtrace_stops.1 ["backtrace"] M1 none 7 rfl rfl,
   C9_backtrace_stops.2.1 mwW dbgW 4 64 (by decide) (by decide),
   C9_backtrace_stops.2.2.2 mwW dbgW 3 64 5⟩

end JOS
